import Mathlib

/-!
# Verification of `src/shared.h` (a `std::shared_ptr`-like shared-ownership handle)

Shallow embedding of the repository's code. Heap state is explicit: control
blocks live in an association list keyed by allocation id; payload memory is an
association list from addresses to values; destructor invocations and the
number of heap allocations and of `++ref_cnt` operations are recorded so that
"destroyed exactly once", "exactly one allocation" and "performs no
incrementing copy" become provable statements.

Conventions:
- `Addr` models a payload address (`Y*`), `BlockId` a heap allocation of a
  control block (`ControlBlockBase*`), `TypeTag` the concrete C++ type `Y`
  fixed at block-creation time (it selects which destructor runs).
- C++ undefined behaviour (dereferencing a dangling or null control-block
  pointer) is modelled as a no-op on the heap; the theorems below only visit
  states where those branches are not taken.
-/

set_option autoImplicit false

namespace SPtr

/-- Address of a payload object (`Y*`). -/
abbrev Addr := Nat

/-- Identifier of one control-block heap allocation. -/
abbrev BlockId := Nat

/-- Tag for the concrete C++ type `Y` fixed when the block is created;
destruction dispatches on it (virtual destructor of the block). -/
abbrev TypeTag := Nat

/-- The two concrete control-block variants of `src/shared.h`.

* `ptrOwned ptr tag` is `ControlBlockPtr<Y>`: it stores the raw pointer
  `ptr_` (possibly null) to a separately allocated `Y`; its destructor does
  `if (ptr_) delete ptr_;` (lines 19-23).
* `holder addr tag` is `ControlBlockHolder<Y>`: it owns embedded storage at
  `addr` in which a `Y` was constructed in place; its destructor runs `~Y()`
  on the embedded storage (lines 35-37). -/
inductive BlockKind where
  | ptrOwned (ptr : Option Addr) (tag : TypeTag)
  | holder (addr : Addr) (tag : TypeTag)
deriving DecidableEq

/-- A control block: `ControlBlockBase` carries `size_t ref_cnt = 1;`
(line 7); the variant data is in `kind`. -/
structure CBlock where
  refCnt : Nat
  kind : BlockKind
deriving DecidableEq

/-- Global heap state.

`blocks` holds the live control blocks; `nextBlockId`/`nextAddr` provide fresh
identifiers; `allocs` counts heap allocations performed; `incs` counts
executed `++ref_cnt` operations; `dtorLog` records payload-destructor runs
`(tag, addr)` in execution order; `mem` maps live payload addresses to their
current value (payload values are modelled as `Nat`). -/
structure Heap where
  blocks : List (BlockId × CBlock)
  nextBlockId : BlockId
  nextAddr : Addr
  allocs : Nat
  incs : Nat
  dtorLog : List (TypeTag × Addr)
  mem : List (Addr × Nat)
deriving DecidableEq

/-- The empty heap. -/
def Heap.empty : Heap := ⟨[], 0, 0, 0, 0, [], []⟩

/-- Look up a control block by id (first match). -/
def findBlock : List (BlockId × CBlock) → BlockId → Option CBlock
  | [], _ => none
  | (i, cb) :: rest, bid => if i = bid then some cb else findBlock rest bid

/-- Replace the (first) entry with key `bid`. -/
def setBlock : List (BlockId × CBlock) → BlockId → CBlock → List (BlockId × CBlock)
  | [], _, _ => []
  | (i, cb) :: rest, bid, cb' =>
      if i = bid then (i, cb') :: rest else (i, cb) :: setBlock rest bid cb'

/-- Remove the (first) entry with key `bid`. -/
def removeBlock : List (BlockId × CBlock) → BlockId → List (BlockId × CBlock)
  | [], _ => []
  | (i, cb) :: rest, bid =>
      if i = bid then rest else (i, cb) :: removeBlock rest bid

/-- Look up a payload value by address. -/
def findMem : List (Addr × Nat) → Addr → Option Nat
  | [], _ => none
  | (a, v) :: rest, x => if a = x then some v else findMem rest x

/-- Remove a payload address (deallocation / end of lifetime). -/
def removeMem : List (Addr × Nat) → Addr → List (Addr × Nat)
  | [], _ => []
  | (a, v) :: rest, x => if a = x then rest else (a, v) :: removeMem rest x

/-- The payload-destructor events one run of a block's (virtual) destructor
produces: none for `ControlBlockPtr` holding null, otherwise exactly one. -/
def dtorEvents : BlockKind → List (TypeTag × Addr)
  | .ptrOwned none _ => []
  | .ptrOwned (some a) tag => [(tag, a)]
  | .holder a tag => [(tag, a)]

/-- Effect of the concrete block destructor's body.

`~ControlBlockPtr()` (lines 19-23): `if (ptr_) { delete ptr_; }` — when
`ptr_` is non-null this runs `~Y()` on `*ptr_` and frees that allocation.
`~ControlBlockHolder()` (lines 35-37): runs `~Y()` on the embedded storage. -/
def runBlockDtor (s : Heap) (cb : CBlock) : Heap :=
  match cb.kind with
  | .ptrOwned none _ => s
  | .ptrOwned (some a) tag =>
      { s with dtorLog := s.dtorLog ++ [(tag, a)], mem := removeMem s.mem a }
  | .holder a tag =>
      { s with dtorLog := s.dtorLog ++ [(tag, a)], mem := removeMem s.mem a }

/-- `delete control_block_`: virtual dispatch runs the concrete variant's
destructor, then the block's own allocation is freed. A dangling id is C++
undefined behaviour; modelled as a no-op. -/
def deleteBlock (s : Heap) (bid : BlockId) : Heap :=
  match findBlock s.blocks bid with
  | none => s
  | some cb =>
      let s1 := runBlockDtor s cb
      { s1 with blocks := removeBlock s1.blocks bid }

/-- The release step shared verbatim by `~SharedPtr` (lines 133-141),
`Reset()` (lines 146-157) and `Reset(ptr)` (lines 159-171):

```
if (control_block_) {
    if (control_block_->ref_cnt == 1) { delete control_block_; }
    else { --control_block_->ref_cnt; }
}
``` -/
def releaseRef (s : Heap) (b : Option BlockId) : Heap :=
  match b with
  | none => s
  | some bid =>
      match findBlock s.blocks bid with
      | none => s
      | some cb =>
          if cb.refCnt = 1 then deleteBlock s bid
          else { s with blocks := setBlock s.blocks bid { cb with refCnt := cb.refCnt - 1 } }

/-- `++control_block_->ref_cnt` on a live block (dangling id: UB, no-op).
Each executed increment is counted in `incs`. -/
def incRef (s : Heap) (bid : BlockId) : Heap :=
  match findBlock s.blocks bid with
  | none => s
  | some cb =>
      { s with blocks := setBlock s.blocks bid { cb with refCnt := cb.refCnt + 1 },
               incs := s.incs + 1 }

/-- `SharedPtr<T>`: `T* data_{}; ControlBlockBase* control_block_;`
(lines 48-49). -/
structure SP where
  data : Option Addr
  block : Option BlockId
deriving DecidableEq

/-- `SharedPtr()` and `SharedPtr(std::nullptr_t)` (lines 61-68): both fields
null, no allocation. -/
def SP.null : SP := ⟨none, none⟩

/-- Allocate a fresh control block on the heap (one heap allocation). -/
def allocBlock (s : Heap) (cb : CBlock) : BlockId × Heap :=
  (s.nextBlockId,
   { s with blocks := (s.nextBlockId, cb) :: s.blocks,
            nextBlockId := s.nextBlockId + 1,
            allocs := s.allocs + 1 })

/-- Caller-side `new Y(v)`: a separate payload allocation, used to set up
raw-pointer adoption scenarios. Not part of `shared.h` itself. -/
def newObject (s : Heap) (v : Nat) : Addr × Heap :=
  (s.nextAddr,
   { s with nextAddr := s.nextAddr + 1,
            allocs := s.allocs + 1,
            mem := (s.nextAddr, v) :: s.mem })

/-- `template <typename Y> explicit SharedPtr(Y* ptr)` (lines 70-72):
`data_ = ptr`, `control_block_ = new ControlBlockPtr<Y>(ptr)`; the fresh
block's `ref_cnt` is 1 and its destructor type is fixed to `Y` (`tag`). -/
def fromRaw (s : Heap) (tag : TypeTag) (ptr : Option Addr) : SP × Heap :=
  let r := allocBlock s ⟨1, .ptrOwned ptr tag⟩
  (⟨ptr, some r.1⟩, r.2)

/-- Copy constructor (lines 74-78) and the converting copy constructor
(lines 84-89), whose bodies are identical: copy `data_` and `control_block_`,
then `if (control_block_) ++control_block_->ref_cnt;`. -/
def copyCtor (h : SP) (s : Heap) : SP × Heap :=
  match h.block with
  | none => (⟨h.data, none⟩, s)
  | some bid => (⟨h.data, some bid⟩, incRef s bid)

/-- Move constructor (lines 79-82) and converting move constructor
(lines 90-94): copy both fields, null the source, heap untouched.
Returns (destination, source-after-move). -/
def moveCtor (h : SP) : SP × SP :=
  (⟨h.data, h.block⟩, SP.null)

/-- Aliasing constructor (lines 98-102): `data_ = ptr`,
`control_block_ = other.control_block_`, then unconditionally
`++control_block_->ref_cnt;` — when `other` is empty this dereferences a null
pointer (UB); that branch is modelled as leaving the heap unchanged. -/
def aliasCtor (other : SP) (ptr : Option Addr) (s : Heap) : SP × Heap :=
  match other.block with
  | some bid => (⟨ptr, some bid⟩, incRef s bid)
  | none => (⟨ptr, none⟩, s)

/-- `~SharedPtr()` (lines 133-141): the release step on `control_block_`. -/
def SP.dtor (h : SP) (s : Heap) : Heap :=
  releaseRef s h.block

/-- `Reset()` (lines 146-157): release, then null both fields. -/
def SP.reset (h : SP) (s : Heap) : SP × Heap :=
  (SP.null, releaseRef s h.block)

/-- `Reset(Y* ptr)` (lines 159-171): release, then adopt `ptr` in a fresh
`ControlBlockPtr<Y>` with count 1. -/
def SP.resetPtr (h : SP) (s : Heap) (tag : TypeTag) (ptr : Option Addr) : SP × Heap :=
  let s1 := releaseRef s h.block
  let r := allocBlock s1 ⟨1, .ptrOwned ptr tag⟩
  (⟨ptr, some r.1⟩, r.2)

/-- `operator=(const SharedPtr& other)` (lines 107-117) when `&other != this`:
`this->Reset();` then copy the fields and increment if non-null. With distinct
handle objects, `other`'s fields are unaffected by the release, so passing
`src` by value is faithful. -/
def copyAssign (dst src : SP) (s : Heap) : SP × Heap :=
  let s1 := releaseRef s dst.block
  match src.block with
  | none => (⟨src.data, none⟩, s1)
  | some bid => (⟨src.data, some bid⟩, incRef s1 bid)

/-- `operator=(const SharedPtr& other)` traced when `&other == this`
(self-assignment, `h = h`): `this->Reset()` releases the block and nulls both
fields of the one shared object; then `data_ = other.data_` and
`control_block_ = other.control_block_` read those already-nulled fields, and
`if (control_block_)` is false so nothing is incremented. The handle ends
empty. -/
def copyAssignSelf (h : SP) (s : Heap) : SP × Heap :=
  (SP.null, releaseRef s h.block)

/-- `operator=(SharedPtr&& other)` (lines 118-128) when `&other != this`:
`this->Reset();`, transfer `other.Get()` and `other.control_block_`, then null
`other`. Returns ((destination, source-after), heap). -/
def moveAssign (dst src : SP) (s : Heap) : (SP × SP) × Heap :=
  let s1 := releaseRef s dst.block
  ((⟨src.data, src.block⟩, SP.null), s1)

/-- `operator=(SharedPtr&& other)` traced when `&other == this`
(self-move, `h = std::move(h)`): `this->Reset()` releases and nulls the
fields; `other.Get()` and `other.control_block_` then read back null. The
handle ends empty. -/
def moveAssignSelf (h : SP) (s : Heap) : SP × Heap :=
  (SP.null, releaseRef s h.block)

/-- `Swap(SharedPtr& other)` (lines 172-176), traced for two distinct handle
objects (they may share a block):

```
auto tmp = *this;   // copy ctor
*this = other;      // copy assignment
other = tmp;        // copy assignment
                    // tmp destroyed at end of scope
```
Returns (this-after, other-after, heap). -/
def swap (a b : SP) (s : Heap) : SP × SP × Heap :=
  let r1 := copyCtor a s
  let r2 := copyAssign a b r1.2
  let r3 := copyAssign b r1.1 r2.2
  (r2.1, r3.1, SP.dtor r1.1 r3.2)

/-- `MakeShared<Y>(args...)` (lines 210-217): one allocation of a
`ControlBlockHolder<Y>` whose constructor placement-news `Y(args...)` into the
embedded storage; `data_ = block->GetRawPointer()` points at that storage;
the inherited `ref_cnt` is 1. The constructed value is modelled by `v`. -/
def makeShared (s : Heap) (tag : TypeTag) (v : Nat) : SP × Heap :=
  let a := s.nextAddr
  let s1 := { s with nextAddr := s.nextAddr + 1, mem := (a, v) :: s.mem }
  let r := allocBlock s1 ⟨1, .holder a tag⟩
  (⟨some a, some r.1⟩, r.2)

/-- `UseCount()` (lines 190-196): `control_block_ ? control_block_->ref_cnt : 0`.
A dangling block id is UB; modelled as 0. -/
def SP.useCount (h : SP) (s : Heap) : Nat :=
  match h.block with
  | none => 0
  | some bid =>
      match findBlock s.blocks bid with
      | some cb => cb.refCnt
      | none => 0

/-- `explicit operator bool()` (lines 197-203): true iff `data_` is non-null. -/
def SP.toBool (h : SP) : Bool :=
  h.data.isSome

/-- `Get()` (lines 181-183). -/
def SP.get (h : SP) : Option Addr :=
  h.data

/-- `operator*` (lines 184-186): read the pointee. Dereferencing an empty
handle is UB; modelled as `none`. -/
def deref (h : SP) (s : Heap) : Option Nat :=
  match h.data with
  | none => none
  | some a => findMem s.mem a

/-- Iterated release of one block id: `k` handles to the same block being
destroyed (or reset) one after another. -/
def iterRelease (s : Heap) (bid : BlockId) : Nat → Heap
  | 0 => s
  | k + 1 => iterRelease (releaseRef s (some bid)) bid k

/-! ## Association-list lemmas -/

theorem findBlock_setBlock_self (l : List (BlockId × CBlock)) (bid : BlockId) (cb cb' : CBlock)
    (h : findBlock l bid = some cb) :
    findBlock (setBlock l bid cb') bid = some cb' := by
  induction l with
  | nil => simp [findBlock] at h
  | cons p rest ih =>
    obtain ⟨i, c⟩ := p
    by_cases hi : i = bid
    · simp [findBlock, setBlock, hi]
    · simp only [findBlock, setBlock, if_neg hi] at h ⊢
      exact ih h

theorem findBlock_setBlock_ne (l : List (BlockId × CBlock)) (bid bid' : BlockId) (cb' : CBlock)
    (h : bid ≠ bid') :
    findBlock (setBlock l bid cb') bid' = findBlock l bid' := by
  induction l with
  | nil => simp [setBlock]
  | cons p rest ih =>
    obtain ⟨i, c⟩ := p
    by_cases hi : i = bid
    · subst hi
      simp only [setBlock, if_pos rfl, findBlock, if_neg h]
    · simp only [setBlock, if_neg hi, findBlock]
      by_cases hi' : i = bid'
      · simp [hi']
      · simp only [if_neg hi']
        exact ih

theorem setBlock_setBlock (l : List (BlockId × CBlock)) (bid : BlockId) (c1 c2 : CBlock) :
    setBlock (setBlock l bid c1) bid c2 = setBlock l bid c2 := by
  induction l with
  | nil => simp [setBlock]
  | cons p rest ih =>
    obtain ⟨i, c⟩ := p
    by_cases hi : i = bid
    · simp [setBlock, hi]
    · simp [setBlock, hi, ih]

theorem setBlock_eq_self (l : List (BlockId × CBlock)) (bid : BlockId) (cb : CBlock)
    (h : findBlock l bid = some cb) :
    setBlock l bid cb = l := by
  induction l with
  | nil => rfl
  | cons p rest ih =>
    obtain ⟨i, c⟩ := p
    by_cases hi : i = bid
    · simp only [findBlock, if_pos hi] at h
      simp only [setBlock, if_pos hi]
      cases h
      rfl
    · simp only [findBlock, if_neg hi] at h
      simp only [setBlock, if_neg hi]
      rw [ih h]

theorem setBlock_keys (l : List (BlockId × CBlock)) (bid : BlockId) (cb' : CBlock) :
    (setBlock l bid cb').map Prod.fst = l.map Prod.fst := by
  induction l with
  | nil => rfl
  | cons p rest ih =>
    obtain ⟨i, c⟩ := p
    by_cases hi : i = bid
    · simp [setBlock, hi]
    · simp [setBlock, hi, ih]

theorem findBlock_eq_none_of_not_mem (l : List (BlockId × CBlock)) (bid : BlockId)
    (h : bid ∉ l.map Prod.fst) :
    findBlock l bid = none := by
  induction l with
  | nil => rfl
  | cons p rest ih =>
    obtain ⟨i, c⟩ := p
    simp only [List.map_cons, List.mem_cons] at h
    push_neg at h
    have hne : i ≠ bid := fun hc => h.1 hc.symm
    simp only [findBlock, if_neg hne]
    exact ih h.2

theorem findBlock_removeBlock_self (l : List (BlockId × CBlock)) (bid : BlockId)
    (hnd : (l.map Prod.fst).Nodup) :
    findBlock (removeBlock l bid) bid = none := by
  induction l with
  | nil => rfl
  | cons p rest ih =>
    obtain ⟨i, c⟩ := p
    simp only [List.map_cons, List.nodup_cons] at hnd
    by_cases hi : i = bid
    · subst hi
      simp only [removeBlock, if_pos rfl]
      exact findBlock_eq_none_of_not_mem rest i hnd.1
    · simp only [removeBlock, if_neg hi, findBlock, if_neg hi]
      exact ih hnd.2

theorem runBlockDtor_blocks (s : Heap) (cb : CBlock) :
    (runBlockDtor s cb).blocks = s.blocks := by
  rcases cb with ⟨n, k⟩
  rcases k with ⟨ptr, tag⟩ | ⟨a, tag⟩
  · rcases ptr with _ | a <;> rfl
  · rfl

theorem runBlockDtor_dtorLog (s : Heap) (cb : CBlock) :
    (runBlockDtor s cb).dtorLog = s.dtorLog ++ dtorEvents cb.kind := by
  rcases cb with ⟨n, k⟩
  rcases k with ⟨ptr, tag⟩ | ⟨a, tag⟩
  · rcases ptr with _ | a
    · simp [runBlockDtor, dtorEvents]
    · rfl
  · rfl

/-! ## Single-step and iterated release lemmas -/

theorem releaseRef_decrement (s : Heap) (bid : BlockId) (cb : CBlock)
    (hf : findBlock s.blocks bid = some cb) (h2 : cb.refCnt ≠ 1) :
    releaseRef s (some bid) =
      { s with blocks := setBlock s.blocks bid ⟨cb.refCnt - 1, cb.kind⟩ } := by
  simp only [releaseRef, hf, if_neg h2]

theorem releaseRef_last (s : Heap) (bid : BlockId) (cb : CBlock)
    (hf : findBlock s.blocks bid = some cb) (h1 : cb.refCnt = 1)
    (hnd : (s.blocks.map Prod.fst).Nodup) :
    (releaseRef s (some bid)).dtorLog = s.dtorLog ++ dtorEvents cb.kind ∧
    findBlock (releaseRef s (some bid)).blocks bid = none := by
  have hrel : releaseRef s (some bid) = deleteBlock s bid := by
    simp only [releaseRef, hf, if_pos h1]
  have hdel : deleteBlock s bid =
      { runBlockDtor s cb with blocks := removeBlock (runBlockDtor s cb).blocks bid } := by
    simp only [deleteBlock, hf]
  constructor
  · rw [hrel, hdel]
    exact runBlockDtor_dtorLog s cb
  · rw [hrel, hdel]
    show findBlock (removeBlock (runBlockDtor s cb).blocks bid) bid = none
    rw [runBlockDtor_blocks]
    exact findBlock_removeBlock_self s.blocks bid hnd

theorem iterRelease_succ (s : Heap) (bid : BlockId) (k : Nat) :
    iterRelease s bid (k + 1) = releaseRef (iterRelease s bid k) (some bid) := by
  induction k generalizing s with
  | zero => rfl
  | succ k ih =>
    have : iterRelease s bid (k + 2) = iterRelease (releaseRef s (some bid)) bid (k + 1) := rfl
    rw [this, ih]
    rfl

theorem iterRelease_decrement (j : Nat) (s : Heap) (bid : BlockId) (cb : CBlock)
    (hf : findBlock s.blocks bid = some cb) (hj : j < cb.refCnt) :
    findBlock (iterRelease s bid j).blocks bid = some ⟨cb.refCnt - j, cb.kind⟩ ∧
    (iterRelease s bid j).blocks.map Prod.fst = s.blocks.map Prod.fst ∧
    (iterRelease s bid j).dtorLog = s.dtorLog ∧
    (iterRelease s bid j).mem = s.mem ∧
    (iterRelease s bid j).allocs = s.allocs := by
  induction j generalizing s cb with
  | zero =>
    refine ⟨?_, rfl, rfl, rfl, rfl⟩
    simpa [iterRelease] using hf
  | succ k ih =>
    have h2 : cb.refCnt ≠ 1 := by omega
    have hstep := releaseRef_decrement s bid cb hf h2
    have hunf : iterRelease s bid (k + 1) = iterRelease (releaseRef s (some bid)) bid k := rfl
    have hf1 : findBlock (releaseRef s (some bid)).blocks bid = some ⟨cb.refCnt - 1, cb.kind⟩ := by
      rw [hstep]
      exact findBlock_setBlock_self s.blocks bid cb _ hf
    have hj1 : k < (CBlock.mk (cb.refCnt - 1) cb.kind).refCnt := by
      show k < cb.refCnt - 1
      omega
    obtain ⟨g1, g2, g3, g4, g5⟩ := ih (releaseRef s (some bid)) ⟨cb.refCnt - 1, cb.kind⟩ hf1 hj1
    rw [hunf]
    refine ⟨?_, ?_, ?_, ?_, ?_⟩
    · rw [g1]
      have harith : cb.refCnt - 1 - k = cb.refCnt - (k + 1) := by omega
      simp [harith]
    · rw [g2, hstep]
      exact setBlock_keys s.blocks bid _
    · rw [g3, hstep]
    · rw [g4, hstep]
    · rw [g5, hstep]

theorem releaseRef_none (s : Heap) : releaseRef s none = s := rfl

theorem copyCtor_none (h : SP) (s : Heap) (hb : h.block = none) :
    copyCtor h s = (⟨h.data, none⟩, s) := by
  simp [copyCtor, hb]

theorem copyCtor_some (h : SP) (s : Heap) (bid : BlockId) (hb : h.block = some bid) :
    copyCtor h s = (⟨h.data, some bid⟩, incRef s bid) := by
  simp [copyCtor, hb]

theorem copyAssign_none (dst src : SP) (s : Heap) (hsrc : src.block = none) :
    copyAssign dst src s = (⟨src.data, none⟩, releaseRef s dst.block) := by
  simp [copyAssign, hsrc]

theorem copyAssign_some (dst src : SP) (s : Heap) (bid : BlockId)
    (hsrc : src.block = some bid) :
    copyAssign dst src s = (⟨src.data, some bid⟩, incRef (releaseRef s dst.block) bid) := by
  simp [copyAssign, hsrc]

theorem incRef_eq (s : Heap) (bid : BlockId) (cb : CBlock)
    (hf : findBlock s.blocks bid = some cb) :
    incRef s bid =
      { s with blocks := setBlock s.blocks bid ⟨cb.refCnt + 1, cb.kind⟩,
               incs := s.incs + 1 } := by
  simp [incRef, hf]

/-- An increment (`++ref_cnt` from a copy) followed by a release
(`ref_cnt == 1 ? delete : --ref_cnt`) of the same live block restores the heap
exactly, except that one more executed increment is on record. -/
theorem inc_then_release (s : Heap) (bid : BlockId) (cb : CBlock)
    (hf : findBlock s.blocks bid = some cb) (hpos : 0 < cb.refCnt) :
    releaseRef (incRef s bid) (some bid) = { s with incs := s.incs + 1 } := by
  have hinc := incRef_eq s bid cb hf
  have hf1 : findBlock (incRef s bid).blocks bid = some ⟨cb.refCnt + 1, cb.kind⟩ := by
    rw [hinc]
    exact findBlock_setBlock_self s.blocks bid cb _ hf
  have hne : (CBlock.mk (cb.refCnt + 1) cb.kind).refCnt ≠ 1 := by
    show cb.refCnt + 1 ≠ 1
    omega
  rw [releaseRef_decrement (incRef s bid) bid ⟨cb.refCnt + 1, cb.kind⟩ hf1 hne, hinc]
  have hcb : CBlock.mk (cb.refCnt + 1 - 1) cb.kind = cb := by
    cases cb
    simp
  simp only [setBlock_setBlock, hcb]
  rw [setBlock_eq_self s.blocks bid cb hf]

/-! ## Claim theorems -/

/-- C1: For every control block, the block (and the resource it owns) is
destroyed exactly once, precisely when the handle performing the last release
(destruction or reset) observes the pre-decrement reference count equal to 1:
with the count at `n`, each of the first `n - 1` sibling releases only
decrements the count and runs no destructor (the destructor log is unchanged
and the block stays live), and the `n`-th release, which observes count 1,
runs the owned resource's destructor exactly once (one destructor-run event is
appended) and removes the block from the heap, so no later release can destroy
it again. -/
theorem C1_last_release_destroys_once (s : Heap) (bid : BlockId) (cb : CBlock) (n : Nat)
    (hf : findBlock s.blocks bid = some cb) (hn : cb.refCnt = n) (hpos : 0 < n)
    (hnd : (s.blocks.map Prod.fst).Nodup) :
    (∀ j, j < n →
      findBlock (iterRelease s bid j).blocks bid = some ⟨n - j, cb.kind⟩ ∧
      (iterRelease s bid j).dtorLog = s.dtorLog) ∧
    (iterRelease s bid n).dtorLog = s.dtorLog ++ dtorEvents cb.kind ∧
    findBlock (iterRelease s bid n).blocks bid = none := by
  subst hn
  constructor
  · intro j hj
    obtain ⟨g1, _, g3, _, _⟩ := iterRelease_decrement j s bid cb hf hj
    exact ⟨g1, g3⟩
  · obtain ⟨g1, g2, g3, _, _⟩ :=
      iterRelease_decrement (cb.refCnt - 1) s bid cb hf (by omega)
    have hsucc : iterRelease s bid cb.refCnt =
        releaseRef (iterRelease s bid (cb.refCnt - 1)) (some bid) := by
      conv_lhs => rw [show cb.refCnt = (cb.refCnt - 1) + 1 by omega]
      exact iterRelease_succ s bid (cb.refCnt - 1)
    have hcnt1 : (CBlock.mk (cb.refCnt - (cb.refCnt - 1)) cb.kind).refCnt = 1 := by
      show cb.refCnt - (cb.refCnt - 1) = 1
      omega
    have hndt : ((iterRelease s bid (cb.refCnt - 1)).blocks.map Prod.fst).Nodup := by
      rw [g2]
      exact hnd
    obtain ⟨d1, d2⟩ :=
      releaseRef_last (iterRelease s bid (cb.refCnt - 1)) bid _ g1 hcnt1 hndt
    constructor
    · rw [hsucc, d1, g3]
    · rw [hsucc]
      exact d2

/-- Concrete heap for the C1 witness: a single control block (id 0) with
reference count 3 owning the separately allocated object at address 5,
destructor type tag 7. -/
def heapC1 : Heap :=
  ⟨[(0, ⟨3, .ptrOwned (some 5) 7⟩)], 1, 6, 2, 2, [], [(5, 42)]⟩

/-- Witness for C1: three sibling handles share block 0; the first two
releases only decrement, the third destroys the owned object exactly once. -/
theorem C1_last_release_destroys_once_witness :
    (findBlock heapC1.blocks 0 = some ⟨3, .ptrOwned (some 5) 7⟩ ∧
     (CBlock.mk 3 (.ptrOwned (some 5) 7)).refCnt = 3 ∧ 0 < 3 ∧
     (heapC1.blocks.map Prod.fst).Nodup) ∧
    ((∀ j, j < 3 →
      findBlock (iterRelease heapC1 0 j).blocks 0 =
        some ⟨3 - j, BlockKind.ptrOwned (some 5) 7⟩ ∧
      (iterRelease heapC1 0 j).dtorLog = heapC1.dtorLog) ∧
    (iterRelease heapC1 0 3).dtorLog =
      heapC1.dtorLog ++ dtorEvents (.ptrOwned (some 5) 7) ∧
    findBlock (iterRelease heapC1 0 3).blocks 0 = none) :=
  ⟨⟨by decide, by decide, by decide, by decide⟩,
   C1_last_release_destroys_once heapC1 0 ⟨3, .ptrOwned (some 5) 7⟩ 3
     (by decide) (by decide) (by decide) (by decide)⟩

/-- C2: For every non-empty handle, copy construction yields a destination
sharing the source's block with the block's reference count exactly one
larger than before, observed identically through both handles' `UseCount`;
move construction transfers `data` and `block` without touching the heap
(hence without changing the count) and leaves the source empty (null data,
absent block). -/
theorem C2_copy_increments_move_transfers (h : SP) (s : Heap) (bid : BlockId) (cb : CBlock)
    (hb : h.block = some bid) (hf : findBlock s.blocks bid = some cb) :
    ((copyCtor h s).1.data = h.data ∧
     (copyCtor h s).1.block = h.block ∧
     h.useCount s = cb.refCnt ∧
     (copyCtor h s).1.useCount (copyCtor h s).2 = cb.refCnt + 1 ∧
     h.useCount (copyCtor h s).2 = cb.refCnt + 1) ∧
    ((moveCtor h).1.data = h.data ∧
     (moveCtor h).1.block = h.block ∧
     (moveCtor h).2.data = none ∧
     (moveCtor h).2.block = none ∧
     (moveCtor h).1.useCount s = cb.refCnt ∧
     (moveCtor h).2.useCount s = 0) := by
  have hcopy : copyCtor h s = (⟨h.data, some bid⟩, incRef s bid) := by
    simp [copyCtor, hb]
  have hinc : incRef s bid =
      { s with blocks := setBlock s.blocks bid ⟨cb.refCnt + 1, cb.kind⟩,
               incs := s.incs + 1 } := by
    simp [incRef, hf]
  have hfind : findBlock (incRef s bid).blocks bid = some ⟨cb.refCnt + 1, cb.kind⟩ := by
    rw [hinc]
    exact findBlock_setBlock_self s.blocks bid cb _ hf
  constructor
  · refine ⟨by rw [hcopy], by rw [hcopy, hb], ?_, ?_, ?_⟩
    · simp [SP.useCount, hb, hf]
    · rw [hcopy]
      simp [SP.useCount, hfind]
    · rw [hcopy]
      simp [SP.useCount, hb, hfind]
  · refine ⟨rfl, rfl, rfl, rfl, ?_, rfl⟩
    simp [moveCtor, SP.useCount, hb, hf]

/-- Witness for C2: a sole-owner handle on a one-block heap. -/
theorem C2_copy_increments_move_transfers_witness :
    ((SP.mk (some 5) (some 0)).block = some 0 ∧
     findBlock heapC1.blocks 0 = some ⟨3, .ptrOwned (some 5) 7⟩) ∧
    (((copyCtor ⟨some 5, some 0⟩ heapC1).1.data = (SP.mk (some 5) (some 0)).data ∧
      (copyCtor ⟨some 5, some 0⟩ heapC1).1.block = (SP.mk (some 5) (some 0)).block ∧
      (SP.mk (some 5) (some 0)).useCount heapC1 = 3 ∧
      (copyCtor ⟨some 5, some 0⟩ heapC1).1.useCount (copyCtor ⟨some 5, some 0⟩ heapC1).2 = 3 + 1 ∧
      (SP.mk (some 5) (some 0)).useCount (copyCtor ⟨some 5, some 0⟩ heapC1).2 = 3 + 1) ∧
     ((moveCtor ⟨some 5, some 0⟩).1.data = (SP.mk (some 5) (some 0)).data ∧
      (moveCtor ⟨some 5, some 0⟩).1.block = (SP.mk (some 5) (some 0)).block ∧
      (moveCtor ⟨some 5, some 0⟩).2.data = none ∧
      (moveCtor ⟨some 5, some 0⟩).2.block = none ∧
      (moveCtor ⟨some 5, some 0⟩).1.useCount heapC1 = 3 ∧
      (moveCtor ⟨some 5, some 0⟩).2.useCount heapC1 = 0)) :=
  ⟨⟨by decide, by decide⟩,
   C2_copy_increments_move_transfers ⟨some 5, some 0⟩ heapC1 0 ⟨3, .ptrOwned (some 5) 7⟩
     (by decide) (by decide)⟩

/-- C10: For every empty handle (null data, absent block), `Reset()` and the
destructor are safe no-ops: the heap is untouched (so no null control block is
dereferenced and no destructor runs), and after `Reset()` the handle remains
empty with `UseCount` 0. -/
theorem C10_empty_reset_dtor_noop (h : SP) (s : Heap)
    (hd : h.data = none) (hb : h.block = none) :
    h.reset s = (SP.null, s) ∧
    SP.dtor h s = s ∧
    (h.reset s).1.useCount (h.reset s).2 = 0 ∧
    (h.reset s).1.data = none ∧
    (h.reset s).1.block = none ∧
    h.useCount s = 0 := by
  simp [SP.reset, SP.dtor, releaseRef, hb, SP.useCount, SP.null]

/-- The sole-owner handle of the C3 trace: caller allocates `new Y(32)` at
address 0, the handle adopts it (`SharedPtr<Y> h(ptr)`), block id 0, count 1. -/
def hC3 : SP := (fromRaw (newObject Heap.empty 32).2 0 (some 0)).1

/-- Heap after the C3 setup trace. -/
def sC3 : Heap := (fromRaw (newObject Heap.empty 32).2 0 (some 0)).2

/-- C3 (refuting the claim; the code, not the spec, is at fault): `operator=`
calls `this->Reset()` before reading `other`, so for a sole-owner handle `h`
(UseCount 1), `h = h` destroys the owned object (one destructor event is
logged) and leaves `h` empty with UseCount 0 — not unchanged as the claim
requires. `h = std::move(h)` behaves the same way. At UseCount 2 (a sibling
copy exists) no destructor runs, but `h` still ends empty with its data
reference lost instead of unchanged. -/
theorem C3_self_assign_destroys_object :
    (hC3 = SP.mk (some 0) (some 0) ∧
     hC3.useCount sC3 = 1 ∧
     deref hC3 sC3 = some 32 ∧
     sC3.dtorLog = []) ∧
    ((copyAssignSelf hC3 sC3).1 = SP.null ∧
     (copyAssignSelf hC3 sC3).2.dtorLog = [(0, 0)] ∧
     (copyAssignSelf hC3 sC3).1.useCount (copyAssignSelf hC3 sC3).2 = 0) ∧
    ((moveAssignSelf hC3 sC3).1 = SP.null ∧
     (moveAssignSelf hC3 sC3).2.dtorLog = [(0, 0)]) ∧
    ((copyAssignSelf hC3 (copyCtor hC3 sC3).2).1 = SP.null ∧
     (copyAssignSelf hC3 (copyCtor hC3 sC3).2).2.dtorLog = []) := by
  decide

/-- C4 counterexample: the handle obtained by adopting a null raw pointer
(`SharedPtr<int> h(static_cast<int*>(nullptr))`) has `UseCount() = 1` yet
tests boolean-false, so `UseCount() == 0` and boolean-false are not
equivalent for every reachable handle. -/
theorem C4_counterexample_null_adoption :
    (fromRaw Heap.empty 0 none).1.useCount (fromRaw Heap.empty 0 none).2 = 1 ∧
    (fromRaw Heap.empty 0 none).1.toBool = false ∧
    ¬((fromRaw Heap.empty 0 none).1.useCount (fromRaw Heap.empty 0 none).2 = 0 ↔
      (fromRaw Heap.empty 0 none).1.toBool = false) := by
  decide

/-- C4 (amended): for every reachable handle `h` (whose block, when present,
is live with a positive count), `h.UseCount() == 0` holds if and only if `h`'s
control block is absent. This coincides with `h` testing boolean-false except
for handles whose data is null while a block is present (null raw-pointer
adoption, null-pointer aliasing). -/
theorem C4_useCount_zero_iff_no_block (h : SP) (s : Heap)
    (hwf : ∀ bid, h.block = some bid →
      ∃ cb, findBlock s.blocks bid = some cb ∧ 0 < cb.refCnt) :
    h.useCount s = 0 ↔ h.block = none := by
  cases hb : h.block with
  | none => simp [SP.useCount, hb]
  | some bid =>
    obtain ⟨cb, hf, hpos⟩ := hwf bid hb
    simp only [SP.useCount, hb, hf]
    simp only [Option.some_ne_none, iff_false]
    omega

/-- Witness for the amended C4 at a non-empty handle sharing block 0. -/
theorem C4_useCount_zero_iff_no_block_witness :
    (∀ bid, (SP.mk (some 5) (some 0)).block = some bid →
      ∃ cb, findBlock heapC1.blocks bid = some cb ∧ 0 < cb.refCnt) ∧
    ((SP.mk (some 5) (some 0)).useCount heapC1 = 0 ↔
      (SP.mk (some 5) (some 0)).block = none) :=
  ⟨fun bid hb => by
      cases hb
      exact ⟨⟨3, .ptrOwned (some 5) 7⟩, by decide, by decide⟩,
   C4_useCount_zero_iff_no_block ⟨some 5, some 0⟩ heapC1
     (fun bid hb => by
       cases hb
       exact ⟨⟨3, .ptrOwned (some 5) 7⟩, by decide, by decide⟩)⟩

/-- C6: For every payload type (tag) and every argument list (modelled by the
constructed value `v`), `MakeShared` performs exactly one heap allocation,
constructs the value in place inside the block's embedded storage, and
returns a handle whose data points at the embedded value (the holder block's
own storage address) with reference count 1. -/
theorem C6_makeShared_one_allocation (s : Heap) (tag : TypeTag) (v : Nat) :
    (makeShared s tag v).2.allocs = s.allocs + 1 ∧
    (makeShared s tag v).1.data = some s.nextAddr ∧
    (makeShared s tag v).1.block = some s.nextBlockId ∧
    findBlock (makeShared s tag v).2.blocks s.nextBlockId =
      some ⟨1, .holder s.nextAddr tag⟩ ∧
    (makeShared s tag v).1.useCount (makeShared s tag v).2 = 1 ∧
    deref (makeShared s tag v).1 (makeShared s tag v).2 = some v := by
  refine ⟨rfl, rfl, rfl, ?_, ?_, ?_⟩
  · simp [makeShared, allocBlock, findBlock]
  · simp [makeShared, allocBlock, SP.useCount, findBlock]
  · simp [makeShared, allocBlock, deref, findMem]

/-- C9: Adopting a null raw pointer is legal: the handle has null data
(boolean-false) but a present control block with count 1; destroying the last
such handle removes the block from the heap while logging no payload
destructor run. -/
theorem C9_null_adoption_noop_release (s : Heap) (tag : TypeTag)
    (hfresh : findBlock s.blocks s.nextBlockId = none) :
    ((fromRaw s tag none).1.data = none ∧
     (fromRaw s tag none).1.block = some s.nextBlockId ∧
     (fromRaw s tag none).1.toBool = false ∧
     (fromRaw s tag none).1.useCount (fromRaw s tag none).2 = 1) ∧
    ((SP.dtor (fromRaw s tag none).1 (fromRaw s tag none).2).blocks = s.blocks ∧
     (SP.dtor (fromRaw s tag none).1 (fromRaw s tag none).2).dtorLog = s.dtorLog ∧
     (SP.dtor (fromRaw s tag none).1 (fromRaw s tag none).2).mem = s.mem ∧
     findBlock (SP.dtor (fromRaw s tag none).1 (fromRaw s tag none).2).blocks
       s.nextBlockId = none) := by
  refine ⟨⟨rfl, rfl, rfl, ?_⟩, ?_, ?_, ?_, ?_⟩
  · simp [fromRaw, allocBlock, SP.useCount, findBlock]
  · simp [fromRaw, allocBlock, SP.dtor, releaseRef, findBlock, deleteBlock,
      runBlockDtor, removeBlock]
  · simp [fromRaw, allocBlock, SP.dtor, releaseRef, findBlock, deleteBlock,
      runBlockDtor, removeBlock]
  · simp [fromRaw, allocBlock, SP.dtor, releaseRef, findBlock, deleteBlock,
      runBlockDtor, removeBlock]
  · simp [fromRaw, allocBlock, SP.dtor, releaseRef, findBlock, deleteBlock,
      runBlockDtor, removeBlock, hfresh]

/-- Witness for C9 on the empty heap. -/
theorem C9_null_adoption_noop_release_witness :
    (findBlock Heap.empty.blocks Heap.empty.nextBlockId = none) ∧
    (((fromRaw Heap.empty 3 none).1.data = none ∧
      (fromRaw Heap.empty 3 none).1.block = some Heap.empty.nextBlockId ∧
      (fromRaw Heap.empty 3 none).1.toBool = false ∧
      (fromRaw Heap.empty 3 none).1.useCount (fromRaw Heap.empty 3 none).2 = 1) ∧
     ((SP.dtor (fromRaw Heap.empty 3 none).1 (fromRaw Heap.empty 3 none).2).blocks =
        Heap.empty.blocks ∧
      (SP.dtor (fromRaw Heap.empty 3 none).1 (fromRaw Heap.empty 3 none).2).dtorLog =
        Heap.empty.dtorLog ∧
      (SP.dtor (fromRaw Heap.empty 3 none).1 (fromRaw Heap.empty 3 none).2).mem =
        Heap.empty.mem ∧
      findBlock (SP.dtor (fromRaw Heap.empty 3 none).1 (fromRaw Heap.empty 3 none).2).blocks
        Heap.empty.nextBlockId = none)) :=
  ⟨by decide, C9_null_adoption_noop_release Heap.empty 3 (by decide)⟩

/-- C5: For every non-empty handle `other` and data reference `ptr`, aliasing
construction produces a handle whose data equals `ptr` and whose block is
`other`'s block with the count incremented by one. When `other` was the sole
owner, releasing it after creating the alias runs no destructor (the block
survives with count 1 held by the alias) and dereferencing the alias still
yields the aliased sub-object's value; only releasing the alias — the last
handle on that block — destroys the owned object. -/
theorem C5_aliasing_shares_and_extends (o : SP) (s : Heap) (bid : BlockId) (cb : CBlock)
    (p : Addr) (v : Nat)
    (hb : o.block = some bid) (hf : findBlock s.blocks bid = some cb)
    (hnd : (s.blocks.map Prod.fst).Nodup) (hmem : findMem s.mem p = some v) :
    ((aliasCtor o (some p) s).1.data = some p ∧
     (aliasCtor o (some p) s).1.block = o.block ∧
     (aliasCtor o (some p) s).1.useCount (aliasCtor o (some p) s).2 = cb.refCnt + 1 ∧
     deref (aliasCtor o (some p) s).1 (aliasCtor o (some p) s).2 = some v) ∧
    (cb.refCnt = 1 →
      ((SP.dtor o (aliasCtor o (some p) s).2).dtorLog = s.dtorLog ∧
       (aliasCtor o (some p) s).1.useCount (SP.dtor o (aliasCtor o (some p) s).2) = 1 ∧
       deref (aliasCtor o (some p) s).1 (SP.dtor o (aliasCtor o (some p) s).2) = some v ∧
       (SP.dtor (aliasCtor o (some p) s).1 (SP.dtor o (aliasCtor o (some p) s).2)).dtorLog =
         s.dtorLog ++ dtorEvents cb.kind)) := by
  have hali : aliasCtor o (some p) s = (⟨some p, some bid⟩, incRef s bid) := by
    simp [aliasCtor, hb]
  have hinc := incRef_eq s bid cb hf
  have hfind : findBlock (incRef s bid).blocks bid = some ⟨cb.refCnt + 1, cb.kind⟩ := by
    rw [hinc]
    exact findBlock_setBlock_self s.blocks bid cb _ hf
  constructor
  · refine ⟨by rw [hali], by rw [hali, hb], ?_, ?_⟩
    · rw [hali]
      simp [SP.useCount, hfind]
    · rw [hali]
      simp only [deref, hinc]
      exact hmem
  · intro hone
    have hrel : SP.dtor o (aliasCtor o (some p) s).2 = { s with incs := s.incs + 1 } := by
      rw [hali]
      show releaseRef (incRef s bid) o.block = _
      rw [hb]
      exact inc_then_release s bid cb hf (by omega)
    refine ⟨by rw [hrel], ?_, ?_, ?_⟩
    · rw [hrel, hali]
      simp [SP.useCount, hf, hone]
    · rw [hrel, hali]
      simp only [deref]
      exact hmem
    · rw [hrel, hali]
      have hlast := releaseRef_last { s with incs := s.incs + 1 } bid cb hf
        (by rw [hone]) hnd
      exact hlast.1

/-- Heap for the C5 witness: block 0 (count 1, tag 7) owns the object at
address 5 whose sub-object lives at address 6 with value 99. -/
def heapC5 : Heap :=
  ⟨[(0, ⟨1, .ptrOwned (some 5) 7⟩)], 1, 7, 2, 0, [], [(5, 42), (6, 99)]⟩

/-- Witness for C5: owner `⟨some 5, some 0⟩`, alias at sub-object address 6. -/
theorem C5_aliasing_shares_and_extends_witness :
    ((SP.mk (some 5) (some 0)).block = some 0 ∧
     findBlock heapC5.blocks 0 = some ⟨1, .ptrOwned (some 5) 7⟩ ∧
     (heapC5.blocks.map Prod.fst).Nodup ∧
     findMem heapC5.mem 6 = some 99) ∧
    (((aliasCtor ⟨some 5, some 0⟩ (some 6) heapC5).1.data = some 6 ∧
      (aliasCtor ⟨some 5, some 0⟩ (some 6) heapC5).1.block = (SP.mk (some 5) (some 0)).block ∧
      (aliasCtor ⟨some 5, some 0⟩ (some 6) heapC5).1.useCount
        (aliasCtor ⟨some 5, some 0⟩ (some 6) heapC5).2 = 1 + 1 ∧
      deref (aliasCtor ⟨some 5, some 0⟩ (some 6) heapC5).1
        (aliasCtor ⟨some 5, some 0⟩ (some 6) heapC5).2 = some 99) ∧
     ((CBlock.mk 1 (.ptrOwned (some 5) 7)).refCnt = 1 →
       ((SP.dtor ⟨some 5, some 0⟩ (aliasCtor ⟨some 5, some 0⟩ (some 6) heapC5).2).dtorLog =
          heapC5.dtorLog ∧
        (aliasCtor ⟨some 5, some 0⟩ (some 6) heapC5).1.useCount
          (SP.dtor ⟨some 5, some 0⟩ (aliasCtor ⟨some 5, some 0⟩ (some 6) heapC5).2) = 1 ∧
        deref (aliasCtor ⟨some 5, some 0⟩ (some 6) heapC5).1
          (SP.dtor ⟨some 5, some 0⟩ (aliasCtor ⟨some 5, some 0⟩ (some 6) heapC5).2) = some 99 ∧
        (SP.dtor (aliasCtor ⟨some 5, some 0⟩ (some 6) heapC5).1
          (SP.dtor ⟨some 5, some 0⟩ (aliasCtor ⟨some 5, some 0⟩ (some 6) heapC5).2)).dtorLog =
          heapC5.dtorLog ++ dtorEvents (.ptrOwned (some 5) 7)))) :=
  ⟨⟨by decide, by decide, by decide, by decide⟩,
   C5_aliasing_shares_and_extends ⟨some 5, some 0⟩ heapC5 0 ⟨1, .ptrOwned (some 5) 7⟩ 6 99
     (by decide) (by decide) (by decide) (by decide)⟩

/-- Heap for the C7 counterexample: two sole-owner blocks. -/
def sC7 : Heap :=
  ⟨[(0, ⟨1, .ptrOwned (some 10) 1⟩), (1, ⟨1, .ptrOwned (some 11) 2⟩)],
   2, 12, 4, 0, [], [(10, 1), (11, 2)]⟩

/-- C7 counterexample: `Swap` on two non-empty handles is implemented as
`tmp = *this; *this = other; other = tmp;`, which executes three `++ref_cnt`
increments (copies that increment), contradicting the claim that no
incrementing copy is performed — even though the exchange itself and the final
counts are correct. -/
theorem C7_counterexample_swap_increments :
    sC7.incs = 0 ∧
    (swap ⟨some 10, some 0⟩ ⟨some 11, some 1⟩ sC7).2.2.incs = 3 ∧
    ¬((swap ⟨some 10, some 0⟩ ⟨some 11, some 1⟩ sC7).2.2.incs = sC7.incs) ∧
    (swap ⟨some 10, some 0⟩ ⟨some 11, some 1⟩ sC7).1 = SP.mk (some 11) (some 1) ∧
    (swap ⟨some 10, some 0⟩ ⟨some 11, some 1⟩ sC7).2.1 = SP.mk (some 10) (some 0) ∧
    (swap ⟨some 10, some 0⟩ ⟨some 11, some 1⟩ sC7).2.2.blocks = sC7.blocks := by
  decide

/-- C7 (amended): For every pair of handles `a` and `b` (each live when
non-empty), `Swap` exchanges their data and block references with no
allocation, no destructor run, and no change to any reference count at
completion — the control-block list is restored exactly. (It is, however,
implemented via copies whose transient increments are matched by decrements,
rather than by an increment-free exchange.) -/
theorem C7_swap_exchanges_no_net_change (a b : SP) (s : Heap)
    (hwf : ∀ bid, a.block = some bid ∨ b.block = some bid →
      ∃ cb, findBlock s.blocks bid = some cb ∧ 0 < cb.refCnt) :
    (swap a b s).1 = SP.mk b.data b.block ∧
    (swap a b s).2.1 = SP.mk a.data a.block ∧
    (swap a b s).2.2.blocks = s.blocks ∧
    (swap a b s).2.2.allocs = s.allocs ∧
    (swap a b s).2.2.dtorLog = s.dtorLog ∧
    (swap a b s).2.2.mem = s.mem := by
  rcases ha : a.block with _ | ba <;> rcases hb : b.block with _ | bb
  · -- both empty
    simp [swap, copyCtor, copyAssign, SP.dtor, releaseRef, ha, hb]
  · -- a empty, b owns bb
    obtain ⟨cbB, hfB, hposB⟩ := hwf bb (Or.inr hb)
    have h1 := copyCtor_none a s ha
    have h2 : copyAssign a b s = (⟨b.data, some bb⟩, incRef s bb) := by
      rw [copyAssign_some a b s bb hb, ha, releaseRef_none]
    have h3 : copyAssign b ⟨a.data, none⟩ (incRef s bb) =
        (⟨a.data, none⟩, { s with incs := s.incs + 1 }) := by
      rw [copyAssign_none b ⟨a.data, none⟩ (incRef s bb) rfl, hb,
        inc_then_release s bb cbB hfB hposB]
    have h4 : SP.dtor (⟨a.data, none⟩ : SP) { s with incs := s.incs + 1 } =
        { s with incs := s.incs + 1 } := rfl
    simp [swap, h1, h2, h3, h4, hb]
  · -- a owns ba, b empty
    obtain ⟨cbA, hfA, hposA⟩ := hwf ba (Or.inl ha)
    have h1 := copyCtor_some a s ba ha
    have h2 : copyAssign a b (incRef s ba) =
        (⟨b.data, none⟩, { s with incs := s.incs + 1 }) := by
      rw [copyAssign_none a b (incRef s ba) hb, ha,
        inc_then_release s ba cbA hfA hposA]
    have h3 : copyAssign b ⟨a.data, some ba⟩ { s with incs := s.incs + 1 } =
        (⟨a.data, some ba⟩, incRef { s with incs := s.incs + 1 } ba) := by
      rw [copyAssign_some b ⟨a.data, some ba⟩ { s with incs := s.incs + 1 } ba rfl, hb,
        releaseRef_none]
    have h4 : SP.dtor (⟨a.data, some ba⟩ : SP) (incRef { s with incs := s.incs + 1 } ba) =
        { s with incs := s.incs + 2 } := by
      show releaseRef (incRef { s with incs := s.incs + 1 } ba) (some ba) = _
      exact inc_then_release { s with incs := s.incs + 1 } ba cbA hfA hposA
    simp [swap, h1, h2, h3, h4, ha]
  · -- both own a block (possibly the same one)
    obtain ⟨cbA, hfA, hposA⟩ := hwf ba (Or.inl ha)
    obtain ⟨cbB, hfB, hposB⟩ := hwf bb (Or.inr hb)
    have h1 := copyCtor_some a s ba ha
    have h2 : copyAssign a b (incRef s ba) =
        (⟨b.data, some bb⟩, incRef { s with incs := s.incs + 1 } bb) := by
      rw [copyAssign_some a b (incRef s ba) bb hb, ha,
        inc_then_release s ba cbA hfA hposA]
    have h3 : copyAssign b ⟨a.data, some ba⟩ (incRef { s with incs := s.incs + 1 } bb) =
        (⟨a.data, some ba⟩, incRef { s with incs := s.incs + 2 } ba) := by
      rw [copyAssign_some b ⟨a.data, some ba⟩ _ ba rfl, hb,
        inc_then_release { s with incs := s.incs + 1 } bb cbB hfB hposB]
    have h4 : SP.dtor (⟨a.data, some ba⟩ : SP) (incRef { s with incs := s.incs + 2 } ba) =
        { s with incs := s.incs + 3 } := by
      show releaseRef (incRef { s with incs := s.incs + 2 } ba) (some ba) = _
      exact inc_then_release { s with incs := s.incs + 2 } ba cbA hfA hposA
    simp [swap, h1, h2, h3, h4, ha, hb]

/-- Witness for the amended C7: two sole-owner handles on `sC7`. -/
theorem C7_swap_exchanges_no_net_change_witness :
    (∀ bid, (SP.mk (some 10) (some 0)).block = some bid ∨
        (SP.mk (some 11) (some 1)).block = some bid →
      ∃ cb, findBlock sC7.blocks bid = some cb ∧ 0 < cb.refCnt) ∧
    ((swap ⟨some 10, some 0⟩ ⟨some 11, some 1⟩ sC7).1 =
       SP.mk (SP.mk (some 11) (some 1)).data (SP.mk (some 11) (some 1)).block ∧
     (swap ⟨some 10, some 0⟩ ⟨some 11, some 1⟩ sC7).2.1 =
       SP.mk (SP.mk (some 10) (some 0)).data (SP.mk (some 10) (some 0)).block ∧
     (swap ⟨some 10, some 0⟩ ⟨some 11, some 1⟩ sC7).2.2.blocks = sC7.blocks ∧
     (swap ⟨some 10, some 0⟩ ⟨some 11, some 1⟩ sC7).2.2.allocs = sC7.allocs ∧
     (swap ⟨some 10, some 0⟩ ⟨some 11, some 1⟩ sC7).2.2.dtorLog = sC7.dtorLog ∧
     (swap ⟨some 10, some 0⟩ ⟨some 11, some 1⟩ sC7).2.2.mem = sC7.mem) :=
  ⟨fun bid hor => by
      rcases hor with h | h
      · cases h
        exact ⟨⟨1, .ptrOwned (some 10) 1⟩, by decide, by decide⟩
      · cases h
        exact ⟨⟨1, .ptrOwned (some 11) 2⟩, by decide, by decide⟩,
   C7_swap_exchanges_no_net_change ⟨some 10, some 0⟩ ⟨some 11, some 1⟩ sC7
     (fun bid hor => by
       rcases hor with h | h
       · cases h
         exact ⟨⟨1, .ptrOwned (some 10) 1⟩, by decide, by decide⟩
       · cases h
         exact ⟨⟨1, .ptrOwned (some 11) 2⟩, by decide, by decide⟩)⟩

/-- C8: The concrete type `Y` fixed at block-creation time (its tag stored in
`ControlBlockPtr<Y>`) decides which destructor runs: after a converting copy
into a base-type handle (the converting copy constructor shares the very same
block), releasing the derived-typed handle and then the base-typed one runs
exactly `Y`'s destructor on the owned object, once. -/
theorem C8_destruction_uses_creation_type (h : SP) (s : Heap) (bid : BlockId)
    (a : Addr) (y : TypeTag)
    (hb : h.block = some bid)
    (hf : findBlock s.blocks bid = some ⟨1, .ptrOwned (some a) y⟩)
    (hnd : (s.blocks.map Prod.fst).Nodup) :
    ((copyCtor h s).1.block = some bid ∧
     (copyCtor h s).1.useCount (copyCtor h s).2 = 2) ∧
    ((SP.dtor h (copyCtor h s).2).dtorLog = s.dtorLog ∧
     (SP.dtor (copyCtor h s).1 (SP.dtor h (copyCtor h s).2)).dtorLog =
       s.dtorLog ++ [(y, a)]) := by
  have hcopy := copyCtor_some h s bid hb
  have hinc := incRef_eq s bid ⟨1, .ptrOwned (some a) y⟩ hf
  have hfind : findBlock (incRef s bid).blocks bid =
      some ⟨2, .ptrOwned (some a) y⟩ := by
    rw [hinc]
    exact findBlock_setBlock_self s.blocks bid _ _ hf
  have hrel : SP.dtor h (copyCtor h s).2 = { s with incs := s.incs + 1 } := by
    rw [hcopy]
    show releaseRef (incRef s bid) h.block = _
    rw [hb]
    exact inc_then_release s bid ⟨1, .ptrOwned (some a) y⟩ hf Nat.one_pos
  constructor
  · constructor
    · rw [hcopy]
    · rw [hcopy]
      simp [SP.useCount, hfind]
  · constructor
    · rw [hrel]
    · rw [hrel, hcopy]
      have hlast := releaseRef_last { s with incs := s.incs + 1 } bid
        ⟨1, .ptrOwned (some a) y⟩ hf rfl hnd
      exact hlast.1

/-- Witness for C8: block 0 created for concrete tag 7 at address 5, handle
converted by copy into a base-typed handle, both released. -/
theorem C8_destruction_uses_creation_type_witness :
    ((SP.mk (some 5) (some 0)).block = some 0 ∧
     findBlock heapC5.blocks 0 = some ⟨1, .ptrOwned (some 5) 7⟩ ∧
     (heapC5.blocks.map Prod.fst).Nodup) ∧
    (((copyCtor ⟨some 5, some 0⟩ heapC5).1.block = some 0 ∧
      (copyCtor ⟨some 5, some 0⟩ heapC5).1.useCount (copyCtor ⟨some 5, some 0⟩ heapC5).2 = 2) ∧
     ((SP.dtor ⟨some 5, some 0⟩ (copyCtor ⟨some 5, some 0⟩ heapC5).2).dtorLog =
        heapC5.dtorLog ∧
      (SP.dtor (copyCtor ⟨some 5, some 0⟩ heapC5).1
        (SP.dtor ⟨some 5, some 0⟩ (copyCtor ⟨some 5, some 0⟩ heapC5).2)).dtorLog =
        heapC5.dtorLog ++ [(7, 5)])) :=
  ⟨⟨by decide, by decide, by decide⟩,
   C8_destruction_uses_creation_type ⟨some 5, some 0⟩ heapC5 0 5 7
     (by decide) (by decide) (by decide)⟩

/-- Witness for C10: the empty handle on the empty heap. -/
theorem C10_empty_reset_dtor_noop_witness :
    (SP.null.data = none ∧ SP.null.block = none) ∧
    (SP.null.reset Heap.empty = (SP.null, Heap.empty) ∧
     SP.dtor SP.null Heap.empty = Heap.empty ∧
     (SP.null.reset Heap.empty).1.useCount (SP.null.reset Heap.empty).2 = 0 ∧
     (SP.null.reset Heap.empty).1.data = none ∧
     (SP.null.reset Heap.empty).1.block = none ∧
     SP.null.useCount Heap.empty = 0) :=
  ⟨⟨by decide, by decide⟩,
   C10_empty_reset_dtor_noop SP.null Heap.empty (by decide) (by decide)⟩

end SPtr
